import Mathlib

/-!
Verification development for the Ender-3 printer controller (src/Ender.py).

The embedding models the two core components of the source:

* the motion-program translator `print_from_gcode` (comment stripping,
  token splitting on single spaces, field extraction, scaling, feedrate
  override policy, abort on malformed numerics), and
* the serial-port resolver `__find_serial_port` (platform/manufacturer
  filters, probe, strict UTF-8 decode of the response, signature match),
  together with the constructor that raises when no port is found, and
  the coordinate-system selector `use_workpiece_coordinate_system`.

Python strings are modelled as `List Char`; Python floats as `ℚ` (every
numeric value appearing in the claims is exactly representable, and all
operations involved, products and parses of short decimal literals, are
exact in IEEE double, so rational arithmetic is faithful on them).
Fallible Python code (float() raising ValueError, bytes.decode raising
UnicodeDecodeError) is modelled with Except/Option results.
-/

/-- Membership test of a character class: the characters stripped by
Python float() around a numeric literal (space, tab, newline, carriage
return, vertical tab, form feed). -/
def isPySpace (c : Char) : Bool :=
  c = ' ' || c = '\t' || c = '\n' || c = '\r' || c = Char.ofNat 11 || c = Char.ofNat 12

/-- Whitespace stripping at both ends, as Python float() applies to its
argument before parsing. -/
def pyStrip (s : List Char) : List Char :=
  ((s.dropWhile isPySpace).reverse.dropWhile isPySpace).reverse

/-- Value of a digit string, most significant first. -/
def digitsVal (ds : List Char) : Nat :=
  ds.foldl (fun a c => a * 10 + (c.toNat - 48)) 0

/-- Multiplication by a signed power of ten, the effect of a decimal
exponent on a parsed mantissa. -/
def applyExp (m : ℚ) (e : Int) : ℚ :=
  if 0 ≤ e then m * (10 : ℚ) ^ e.toNat else m / (10 : ℚ) ^ (-e).toNat

/-- Parse of an optional exponent suffix: either the empty string
(exponent 0) or the letter e or E, an optional sign and a nonempty digit
string, consuming the whole input. -/
def parseExp : List Char → Option Int
  | [] => some 0
  | c :: rest =>
    if c = 'e' || c = 'E' then
      let sr : Int × List Char :=
        match rest with
        | '+' :: r => (1, r)
        | '-' :: r => (-1, r)
        | r => (1, r)
      let ds := sr.2.takeWhile Char.isDigit
      if ds.isEmpty || !(sr.2.dropWhile Char.isDigit).isEmpty then none
      else some (sr.1 * (digitsVal ds : Int))
    else none

/-- Model of the Python builtin float() on finite decimal literals:
strips whitespace, then accepts an optional sign, digits with an
optional decimal point (at least one digit on one side of the point)
and an optional exponent, consuming the whole input; returns none where
float() raises ValueError.  The special literals nan, inf and digit
group underscores, which no claim touches, are not modelled. -/
def parsePyFloat (s : List Char) : Option ℚ :=
  let cs := pyStrip s
  let sc : ℚ × List Char :=
    match cs with
    | '+' :: r => (1, r)
    | '-' :: r => (-1, r)
    | r => (1, r)
  let ip := sc.2.takeWhile Char.isDigit
  let rest := sc.2.dropWhile Char.isDigit
  match rest with
  | '.' :: rest2 =>
    let fp := rest2.takeWhile Char.isDigit
    let rest3 := rest2.dropWhile Char.isDigit
    if ip.isEmpty && fp.isEmpty then none
    else
      match parseExp rest3 with
      | none => none
      | some e => some (sc.1 * applyExp ((digitsVal (ip ++ fp) : ℚ) / (10 : ℚ) ^ fp.length) e)
  | _ =>
    if ip.isEmpty then none
    else
      match parseExp rest with
      | none => none
      | some e => some (sc.1 * applyExp (digitsVal ip : ℚ) e)

/-- Prefix test on character lists, modelling str.startswith. -/
def isPrefixList : List Char → List Char → Bool
  | [], _ => true
  | _ :: _, [] => false
  | a :: as, b :: bs => a == b && isPrefixList as bs

/-- Containment test, modelling the Python operator in for a substring
(the scan of str.find): true when the needle occurs contiguously in the
haystack. -/
def containsSeq (needle : List Char) : List Char → Bool
  | [] => needle.isEmpty
  | h :: t => isPrefixList needle (h :: t) || containsSeq needle t

/-- Split on a single separator character, modelling str.split(sep) for
a one-character sep: always returns at least one piece, and empty
pieces between adjacent separators are kept, exactly as in Python. -/
def splitOnChar (sep : Char) : List Char → List (List Char)
  | [] => [[]]
  | c :: cs =>
    let r := splitOnChar sep cs
    if c = sep then [] :: r
    else
      match r with
      | h :: t => (c :: h) :: t
      | [] => [[c]]

/-- The piece at index 1 of a split, modelling coord.split(sep)[1]; in
the translator the index is always in range because the token is only
split after a startswith check on the same character. -/
def part1 (sep : Char) (tok : List Char) : List Char :=
  ((splitOnChar sep tok).drop 1).headD []

/-- Helper used by readlines: lines of a text, each retaining its
terminating newline, as Python file.readlines() returns them. -/
def readlinesAux : List Char → List Char → List (List Char)
  | [], acc => if acc.isEmpty then [] else [acc.reverse]
  | c :: cs, acc =>
    if c = '\n' then (c :: acc).reverse :: readlinesAux cs []
    else readlinesAux cs (c :: acc)

/-- Model of f.readlines() on the file content: splits into lines, each
line keeping its trailing newline character, a final line without one
kept as is. -/
def pyReadlines (content : String) : List (List Char) :=
  readlinesAux content.data []

/-- The error raised on malformed numeric text: in the source the
builtin float() raises ValueError, which the specification names
ParseError; it carries the offending literal. -/
inductive ParseError where
  | malformedFloat (lit : List Char)
  deriving DecidableEq

/-- float() lifted to the translator error channel. -/
def pyFloat (lit : List Char) : Except ParseError ℚ :=
  match parsePyFloat lit with
  | some v => .ok v
  | none => .error (.malformedFloat lit)

/-- The mutable per-line parse state of the translator loop: the
variables x, y, z, feedrate of print_from_gcode, each None until a
field assigns it (feedrate may start at an override). -/
structure GState where
  x : Option ℚ
  y : Option ℚ
  z : Option ℚ
  feedrate : Option ℚ
  deriving DecidableEq

/-- The statement if coord.startswith(X): x = float(coord.split(X)[1])*scale. -/
def setX (scale : ℚ) (st : GState) (coord : List Char) : Except ParseError GState :=
  if isPrefixList ['X'] coord then
    match pyFloat (part1 'X' coord) with
    | .ok v => .ok { st with x := some (v * scale) }
    | .error e => .error e
  else .ok st

/-- The statement if coord.startswith(Y): y = float(coord.split(Y)[1])*scale. -/
def setY (scale : ℚ) (st : GState) (coord : List Char) : Except ParseError GState :=
  if isPrefixList ['Y'] coord then
    match pyFloat (part1 'Y' coord) with
    | .ok v => .ok { st with y := some (v * scale) }
    | .error e => .error e
  else .ok st

/-- The statement if coord.startswith(Z): z = float(coord.split(Z)[1])*scale. -/
def setZ (scale : ℚ) (st : GState) (coord : List Char) : Except ParseError GState :=
  if isPrefixList ['Z'] coord then
    match pyFloat (part1 'Z' coord) with
    | .ok v => .ok { st with z := some (v * scale) }
    | .error e => .error e
  else .ok st

/-- The statement if coord.startswith(F) and GUARD: feedrate = float(coord.split(F)[1]).
The guard differs between the two branches of the source: in the G0
branch it is feedrate is None (a test on the loop variable), in the G1
branch it is move_feedrate is None (a test on the parameter), so it is
passed in as a predicate on the current state.  The parsed feedrate is
not multiplied by the scale factor. -/
def setF (g : GState → Bool) (st : GState) (coord : List Char) : Except ParseError GState :=
  if isPrefixList ['F'] coord && g st then
    match pyFloat (part1 'F' coord) with
    | .ok v => .ok { st with feedrate := some v }
    | .error e => .error e
  else .ok st

/-- One iteration of the token loop of print_from_gcode: the four
startswith checks run in order on the same token (they are disjoint,
since each tests a different first character). -/
def applyToken (scale : ℚ) (g : GState → Bool) (st : GState) (coord : List Char) :
    Except ParseError GState :=
  match setX scale st coord with
  | .error e => .error e
  | .ok st1 =>
    match setY scale st1 coord with
    | .error e => .error e
    | .ok st2 =>
      match setZ scale st2 coord with
      | .error e => .error e
      | .ok st3 => setF g st3 coord

/-- The token loop for coord in splits[1:], aborting at the first
ValueError as the Python for loop does when float() raises. -/
def procTokens (scale : ℚ) (g : GState → Bool) : GState → List (List Char) →
    Except ParseError GState
  | st, [] => .ok st
  | st, t :: ts =>
    match applyToken scale g st t with
    | .error e => .error e
    | .ok st2 => procTokens scale g st2 ts

/-- The kind of motion call forwarded to the gscrib sink: self.rapid for
a G0 line, self.move for a G1 line. -/
inductive MoveKind where
  | rapid
  | linear
  deriving DecidableEq

/-- One call to the motion sink with its keyword arguments; a none field
models an argument left at the None default (the source passes x=None
explicitly, which for the sink is the same as omitting the axis). -/
structure MoveCall where
  kind : MoveKind
  x : Option ℚ
  y : Option ℚ
  z : Option ℚ
  feedrate : Option ℚ
  deriving DecidableEq

/-- The token list of one input line: strip the comment at the first
semicolon, then split the remainder on single spaces, exactly
line.split(SEMI)[0].split(SPACE) of the source.  Note the split is on
the space character only: a trailing newline from readlines stays
inside the last token. -/
def lineTokens (line : List Char) : List (List Char) :=
  splitOnChar ' ' ((splitOnChar ';' line).headD [])

/-- Translation of a single line of print_from_gcode: dispatch on the
first token (the match statement of the source), run the field loop
with the branch-specific feedrate initialisation and F guard, and emit
the rapid or move call; any other first token emits nothing.  The two
call sites of the source (with and without the F keyword) collapse to
one record since an absent feedrate is the none field. -/
def processLine (rapid_feedrate move_feedrate : Option ℚ) (scale : ℚ) (line : List Char) :
    Except ParseError (List MoveCall) :=
  let splits := lineTokens line
  if splits.headD [] = "G0".data then
    match procTokens scale (fun st => st.feedrate.isNone) ⟨none, none, none, rapid_feedrate⟩ (splits.drop 1) with
    | .error e => .error e
    | .ok st => .ok [⟨.rapid, st.x, st.y, st.z, st.feedrate⟩]
  else if splits.headD [] = "G1".data then
    match procTokens scale (fun _ => move_feedrate.isNone) ⟨none, none, none, move_feedrate⟩ (splits.drop 1) with
    | .error e => .error e
    | .ok st => .ok [⟨.linear, st.x, st.y, st.z, st.feedrate⟩]
  else .ok []

/-- The line loop of print_from_gcode: lines are processed in file
order; the calls emitted before an abort stay emitted, and a ValueError
raised by a line stops the loop, so no later line contributes. -/
def translateLines (rapid_feedrate move_feedrate : Option ℚ) (scale : ℚ) :
    List (List Char) → List MoveCall × Option ParseError
  | [] => ([], none)
  | l :: ls =>
    match processLine rapid_feedrate move_feedrate scale l with
    | .error e => ([], some e)
    | .ok cs =>
      let r := translateLines rapid_feedrate move_feedrate scale ls
      (cs ++ r.1, r.2)

/-- The session state mutated by print_from_gcode beyond the emitted
calls: the attribute self.ode_content, assigned the full list of lines
read from the file before the parsing loop starts. -/
structure EnderState where
  ode_content : List (List Char)
  deriving DecidableEq

/-- Outcome of one run of print_from_gcode: the new session state, the
motion calls emitted in order, and the ParseError if the run aborted. -/
structure RunResult where
  state : EnderState
  calls : List MoveCall
  err : Option ParseError
  deriving DecidableEq

/-- print_from_gcode(f_path, rapid_feedrate, move_feedrate, scale): the
file content stands in for the path (the read itself is external I/O);
readlines is stored into ode_content, then every line is translated. -/
def print_from_gcode (st : EnderState) (content : String)
    (rapid_feedrate move_feedrate : Option ℚ) (scale : ℚ) : RunResult :=
  let ls := pyReadlines content
  let r := translateLines rapid_feedrate move_feedrate scale ls
  { state := { st with ode_content := ls }, calls := r.1, err := r.2 }

/-- One candidate serial port as enumerated by comports(), together
with the oracle of what probing it would observe: whether the opened
handle reports open, and the raw bytes read back after the M115 write. -/
structure PortInfo where
  device : String
  manufacturer : Option String
  isOpen : Bool
  response : List Nat
  deriving DecidableEq

/-- Continuation byte test of strict UTF-8. -/
def isCont (b : Nat) : Bool := 0x80 ≤ b && b ≤ 0xBF

/-- Strict UTF-8 decoding of a byte list, modelling bytes.decode() with
its default codec: rejects stray continuation bytes, truncated
sequences, overlong encodings, surrogates and out-of-range leads,
returning none exactly where decode raises UnicodeDecodeError. -/
def utf8Decode : List Nat → Option (List Char)
  | [] => some []
  | b :: rest =>
    if b ≤ 0x7F then
      (utf8Decode rest).map (Char.ofNat b :: ·)
    else if 0xC2 ≤ b && b ≤ 0xDF then
      match rest with
      | b1 :: rest2 =>
        if isCont b1 then
          (utf8Decode rest2).map (Char.ofNat ((b - 0xC0) * 0x40 + (b1 - 0x80)) :: ·)
        else none
      | [] => none
    else if 0xE0 ≤ b && b ≤ 0xEF then
      match rest with
      | b1 :: b2 :: rest2 =>
        let lo1 := if b = 0xE0 then 0xA0 else 0x80
        let hi1 := if b = 0xED then 0x9F else 0xBF
        if lo1 ≤ b1 && b1 ≤ hi1 && isCont b2 then
          (utf8Decode rest2).map
            (Char.ofNat ((b - 0xE0) * 0x1000 + (b1 - 0x80) * 0x40 + (b2 - 0x80)) :: ·)
        else none
      | _ => none
    else if 0xF0 ≤ b && b ≤ 0xF4 then
      match rest with
      | b1 :: b2 :: b3 :: rest2 =>
        let lo1 := if b = 0xF0 then 0x90 else 0x80
        let hi1 := if b = 0xF4 then 0x8F else 0xBF
        if lo1 ≤ b1 && b1 ≤ hi1 && isCont b2 && isCont b3 then
          (utf8Decode rest2).map
            (Char.ofNat ((b - 0xF0) * 0x40000 + (b1 - 0x80) * 0x1000 +
              (b2 - 0x80) * 0x40 + (b3 - 0x80)) :: ·)
        else none
      | _ => none
    else none

/-- How a resolution attempt ends at the level of __find_serial_port:
either the loop returns a device (or falls through with None), or the
bare response.decode() call raises UnicodeDecodeError, which nothing in
the function catches. -/
inductive ProbeOutcome where
  | returned (device : Option String)
  | raisedDecode
  deriving DecidableEq

/-- Result of __find_serial_port: the devices that were actually probed
(an M115 write observed on them), in order, and the outcome. -/
structure FindResult where
  probed : List String
  outcome : ProbeOutcome
  deriving DecidableEq

/-- The three skip filters of the probe loop combined: a candidate is
probed when it survives the Linux ttyUSB name filter, reports no
manufacturer string, and its opened handle reports open. -/
def probedP (platformLinux : Bool) (p : PortInfo) : Bool :=
  !(platformLinux && !(containsSeq "ttyUSB".data p.device.data)) &&
    p.manufacturer.isNone && p.isOpen

/-- __find_serial_port: for each enumerated candidate in order, skip it
on Linux when the device name lacks ttyUSB, skip it when a manufacturer
string is reported, open it and skip it when the handle is not open;
otherwise write M115, wait, read the response, close the handle, decode
the bytes (propagating the UnicodeDecodeError on failure, as the source
calls decode with no handler) and return the device when the decoded
text contains the Marlin signature, else continue with the next
candidate; falling off the loop returns None. -/
def find_serial_port (platformLinux : Bool) : List PortInfo → FindResult
  | [] => ⟨[], .returned none⟩
  | p :: rest =>
    if platformLinux && !(containsSeq "ttyUSB".data p.device.data) then
      find_serial_port platformLinux rest
    else if p.manufacturer.isSome then
      find_serial_port platformLinux rest
    else if !p.isOpen then
      find_serial_port platformLinux rest
    else
      match utf8Decode p.response with
      | none => ⟨[p.device], .raisedDecode⟩
      | some text =>
        if containsSeq "Marlin".data text then ⟨[p.device], .returned (some p.device)⟩
        else
          let r := find_serial_port platformLinux rest
          ⟨p.device :: r.probed, r.outcome⟩

/-- The devices the loop would probe in a full pass over a candidate
list: those passing all three filters, in enumeration order. -/
def probedDevices (platformLinux : Bool) (ports : List PortInfo) : List String :=
  (ports.filter (probedP platformLinux)).map PortInfo.device

/-- How port resolution surfaces to the caller of Ender.__init__: a
found device, the RuntimeError raised when __find_serial_port returns
None (the PortNotFound failure of the specification), or the
uncaught UnicodeDecodeError escaping from the probe loop. -/
inductive ResolveOutcome where
  | found (device : String)
  | portNotFound
  | decodeError
  deriving DecidableEq

/-- Port resolution as observed by the caller constructing an Ender. -/
def enderResolve (platformLinux : Bool) (ports : List PortInfo) : ResolveOutcome :=
  match (find_serial_port platformLinux ports).outcome with
  | .raisedDecode => .decodeError
  | .returned none => .portNotFound
  | .returned (some d) => .found d

/-- A candidate response that a probe would decode successfully and
find no Marlin signature in, the condition under which the loop
continues to the next candidate. -/
def decodesWithoutSig (r : List Nat) : Bool :=
  match utf8Decode r with
  | none => false
  | some t => !(containsSeq "Marlin".data t)

/-- A candidate response that a probe would decode successfully and
find the Marlin signature in, the condition under which the loop
returns the device. -/
def decodesWithSig (r : List Nat) : Bool :=
  match utf8Decode r with
  | none => false
  | some t => containsSeq "Marlin".data t

/-- The ASCII bytes of a plain string, for building concrete probe
responses. -/
def asciiBytes (s : String) : List Nat := s.data.map Char.toNat

/-- Observable effect of use_workpiece_coordinate_system: directive
lines written to the machine, whether the out-of-range warning was
logged, and whether the X and Y axes were zeroed afterwards. -/
structure WcsResult where
  written : List String
  warned : Bool
  axesZeroed : Bool
  deriving DecidableEq

/-- use_workpiece_coordinate_system(coord_num, zero_coords): warn and
return with no directive when coord_num is outside 1..9, otherwise
write the selector code given by the match statement (the if chain
below mirrors its integer cases) and optionally zero the X and Y axes.
No path raises. -/
def use_workpiece_coordinate_system (coord_num : Int) (zero_coords : Bool) : WcsResult :=
  if ¬ (1 ≤ coord_num ∧ coord_num ≤ 9) then ⟨[], true, false⟩
  else
    let gcode_cmd :=
      if coord_num = 1 then "G54"
      else if coord_num = 2 then "G55"
      else if coord_num = 3 then "G56"
      else if coord_num = 4 then "G57"
      else if coord_num = 5 then "G58"
      else if coord_num = 6 then "G59"
      else if coord_num = 7 then "G59.1"
      else if coord_num = 8 then "G59.2"
      else "G59.3"
    ⟨[gcode_cmd], false, zero_coords⟩

/-! ### Basic lemmas about tokens and setters -/

/-- Two different single-character prefixes cannot both match, so the
four startswith branches of the token loop are mutually exclusive. -/
theorem firstCharExcl {a b : Char} {l : List Char} (hab : b ≠ a)
    (h : isPrefixList [a] l = true) : isPrefixList [b] l = false := by
  cases l with
  | nil => simp [isPrefixList] at h
  | cons c cs =>
    simp only [isPrefixList, Bool.and_eq_true, beq_iff_eq] at h
    simp only [isPrefixList, Bool.and_eq_false_iff, beq_eq_false_iff_ne, ne_eq]
    exact Or.inl (h.1 ▸ hab)

theorem setX_miss {s : ℚ} {st : GState} {coord : List Char}
    (h : isPrefixList ['X'] coord = false) : setX s st coord = .ok st := by
  simp [setX, h]

theorem setX_hit {s : ℚ} {st : GState} {coord : List Char} {v : ℚ}
    (h : isPrefixList ['X'] coord = true) (hp : parsePyFloat (part1 'X' coord) = some v) :
    setX s st coord = .ok { st with x := some (v * s) } := by
  simp [setX, h, pyFloat, hp]

theorem setX_err {s : ℚ} {st : GState} {coord : List Char}
    (h : isPrefixList ['X'] coord = true) (hp : parsePyFloat (part1 'X' coord) = none) :
    setX s st coord = .error (.malformedFloat (part1 'X' coord)) := by
  simp [setX, h, pyFloat, hp]

theorem setY_miss {s : ℚ} {st : GState} {coord : List Char}
    (h : isPrefixList ['Y'] coord = false) : setY s st coord = .ok st := by
  simp [setY, h]

theorem setY_hit {s : ℚ} {st : GState} {coord : List Char} {v : ℚ}
    (h : isPrefixList ['Y'] coord = true) (hp : parsePyFloat (part1 'Y' coord) = some v) :
    setY s st coord = .ok { st with y := some (v * s) } := by
  simp [setY, h, pyFloat, hp]

theorem setZ_miss {s : ℚ} {st : GState} {coord : List Char}
    (h : isPrefixList ['Z'] coord = false) : setZ s st coord = .ok st := by
  simp [setZ, h]

theorem setZ_hit {s : ℚ} {st : GState} {coord : List Char} {v : ℚ}
    (h : isPrefixList ['Z'] coord = true) (hp : parsePyFloat (part1 'Z' coord) = some v) :
    setZ s st coord = .ok { st with z := some (v * s) } := by
  simp [setZ, h, pyFloat, hp]

theorem setF_notF {g : GState → Bool} {st : GState} {coord : List Char}
    (h : isPrefixList ['F'] coord = false) : setF g st coord = .ok st := by
  simp [setF, h]

theorem setF_guardFalse {g : GState → Bool} {st : GState} {coord : List Char}
    (h : g st = false) : setF g st coord = .ok st := by
  simp [setF, h]

theorem setF_hit {g : GState → Bool} {st : GState} {coord : List Char} {v : ℚ}
    (h : isPrefixList ['F'] coord = true) (hg : g st = true)
    (hp : parsePyFloat (part1 'F' coord) = some v) :
    setF g st coord = .ok { st with feedrate := some v } := by
  simp [setF, h, hg, pyFloat, hp]

theorem setX_ok_fields {s : ℚ} {st : GState} {coord : List Char} {st2 : GState}
    (h : setX s st coord = .ok st2) :
    st2.y = st.y ∧ st2.z = st.z ∧ st2.feedrate = st.feedrate := by
  unfold setX at h
  split at h
  · split at h
    · cases h; exact ⟨rfl, rfl, rfl⟩
    · cases h
  · cases h; exact ⟨rfl, rfl, rfl⟩

theorem setY_ok_fields {s : ℚ} {st : GState} {coord : List Char} {st2 : GState}
    (h : setY s st coord = .ok st2) :
    st2.x = st.x ∧ st2.z = st.z ∧ st2.feedrate = st.feedrate := by
  unfold setY at h
  split at h
  · split at h
    · cases h; exact ⟨rfl, rfl, rfl⟩
    · cases h
  · cases h; exact ⟨rfl, rfl, rfl⟩

theorem setZ_ok_fields {s : ℚ} {st : GState} {coord : List Char} {st2 : GState}
    (h : setZ s st coord = .ok st2) :
    st2.x = st.x ∧ st2.y = st.y ∧ st2.feedrate = st.feedrate := by
  unfold setZ at h
  split at h
  · split at h
    · cases h; exact ⟨rfl, rfl, rfl⟩
    · cases h
  · cases h; exact ⟨rfl, rfl, rfl⟩

theorem setF_ok_fields {g : GState → Bool} {st : GState} {coord : List Char} {st2 : GState}
    (h : setF g st coord = .ok st2) :
    st2.x = st.x ∧ st2.y = st.y ∧ st2.z = st.z := by
  unfold setF at h
  split at h
  · split at h
    · cases h; exact ⟨rfl, rfl, rfl⟩
    · cases h
  · cases h; exact ⟨rfl, rfl, rfl⟩

/-! ### Lemmas about one iteration of the token loop -/

/-- An X field token updates exactly x, multiplied by the scale factor. -/
theorem applyToken_X_hit {s : ℚ} {g : GState → Bool} {st : GState} {coord : List Char} {v : ℚ}
    (h : isPrefixList ['X'] coord = true) (hp : parsePyFloat (part1 'X' coord) = some v) :
    applyToken s g st coord = .ok { st with x := some (v * s) } := by
  have hY := firstCharExcl (show 'Y' ≠ 'X' by decide) h
  have hZ := firstCharExcl (show 'Z' ≠ 'X' by decide) h
  have hF := firstCharExcl (show 'F' ≠ 'X' by decide) h
  simp only [applyToken, setX_hit h hp, setY_miss hY, setZ_miss hZ, setF_notF hF]

/-- A Y field token updates exactly y, multiplied by the scale factor. -/
theorem applyToken_Y_hit {s : ℚ} {g : GState → Bool} {st : GState} {coord : List Char} {v : ℚ}
    (h : isPrefixList ['Y'] coord = true) (hp : parsePyFloat (part1 'Y' coord) = some v) :
    applyToken s g st coord = .ok { st with y := some (v * s) } := by
  have hX := firstCharExcl (show 'X' ≠ 'Y' by decide) h
  have hZ := firstCharExcl (show 'Z' ≠ 'Y' by decide) h
  have hF := firstCharExcl (show 'F' ≠ 'Y' by decide) h
  simp only [applyToken, setX_miss hX, setY_hit h hp, setZ_miss hZ, setF_notF hF]

/-- A Z field token updates exactly z, multiplied by the scale factor. -/
theorem applyToken_Z_hit {s : ℚ} {g : GState → Bool} {st : GState} {coord : List Char} {v : ℚ}
    (h : isPrefixList ['Z'] coord = true) (hp : parsePyFloat (part1 'Z' coord) = some v) :
    applyToken s g st coord = .ok { st with z := some (v * s) } := by
  have hX := firstCharExcl (show 'X' ≠ 'Z' by decide) h
  have hY := firstCharExcl (show 'Y' ≠ 'Z' by decide) h
  have hF := firstCharExcl (show 'F' ≠ 'Z' by decide) h
  simp only [applyToken, setX_miss hX, setY_miss hY, setZ_hit h hp, setF_notF hF]

/-- An F field token whose guard holds updates exactly the feedrate,
with no scale factor applied. -/
theorem applyToken_F_hit {s : ℚ} {g : GState → Bool} {st : GState} {coord : List Char} {v : ℚ}
    (h : isPrefixList ['F'] coord = true) (hg : g st = true)
    (hp : parsePyFloat (part1 'F' coord) = some v) :
    applyToken s g st coord = .ok { st with feedrate := some v } := by
  have hX := firstCharExcl (show 'X' ≠ 'F' by decide) h
  have hY := firstCharExcl (show 'Y' ≠ 'F' by decide) h
  have hZ := firstCharExcl (show 'Z' ≠ 'F' by decide) h
  simp only [applyToken, setX_miss hX, setY_miss hY, setZ_miss hZ, setF_hit h hg hp]

/-- An F field token whose guard fails is skipped whole: the and of the
source short-circuits, so float() is never called on the remainder and
the state is unchanged, even when that remainder is unparsable. -/
theorem applyToken_F_skip {s : ℚ} {g : GState → Bool} {st : GState} {coord : List Char}
    (h : isPrefixList ['F'] coord = true) (hg : g st = false) :
    applyToken s g st coord = .ok st := by
  have hX := firstCharExcl (show 'X' ≠ 'F' by decide) h
  have hY := firstCharExcl (show 'Y' ≠ 'F' by decide) h
  have hZ := firstCharExcl (show 'Z' ≠ 'F' by decide) h
  simp only [applyToken, setX_miss hX, setY_miss hY, setZ_miss hZ, setF_guardFalse hg]

/-- An X field token with unparsable numeric text raises, with the
split remainder as the offending literal. -/
theorem applyToken_X_err {s : ℚ} {g : GState → Bool} {st : GState} {coord : List Char}
    (h : isPrefixList ['X'] coord = true) (hp : parsePyFloat (part1 'X' coord) = none) :
    applyToken s g st coord = .error (.malformedFloat (part1 'X' coord)) := by
  simp only [applyToken, setX_err h hp]

/-- A token that is not an F field leaves the feedrate unchanged. -/
theorem applyToken_feedrate_of_notF {s : ℚ} {g : GState → Bool} {st : GState}
    {coord : List Char} {st2 : GState}
    (hF : isPrefixList ['F'] coord = false)
    (h : applyToken s g st coord = .ok st2) : st2.feedrate = st.feedrate := by
  unfold applyToken at h
  cases h1 : setX s st coord with
  | error e => simp [h1] at h
  | ok st1 =>
    simp only [h1] at h
    cases h2 : setY s st1 coord with
    | error e => simp [h2] at h
    | ok stB =>
      simp only [h2] at h
      cases h3 : setZ s stB coord with
      | error e => simp [h3] at h
      | ok stC =>
        simp only [h3, setF_notF hF, Except.ok.injEq] at h
        rw [← h]
        rw [(setZ_ok_fields h3).2.2, (setY_ok_fields h2).2.2, (setX_ok_fields h1).2.2]

/-- A token that is not an X field leaves x unchanged. -/
theorem applyToken_x_of_notX {s : ℚ} {g : GState → Bool} {st : GState}
    {coord : List Char} {st2 : GState}
    (hX : isPrefixList ['X'] coord = false)
    (h : applyToken s g st coord = .ok st2) : st2.x = st.x := by
  unfold applyToken at h
  simp only [setX_miss hX] at h
  cases h2 : setY s st coord with
  | error e => simp [h2] at h
  | ok stB =>
    simp only [h2] at h
    cases h3 : setZ s stB coord with
    | error e => simp [h3] at h
    | ok stC =>
      simp only [h3] at h
      rw [(setF_ok_fields h).1, (setZ_ok_fields h3).1, (setY_ok_fields h2).1]

/-- A token that is not a Y field leaves y unchanged. -/
theorem applyToken_y_of_notY {s : ℚ} {g : GState → Bool} {st : GState}
    {coord : List Char} {st2 : GState}
    (hY : isPrefixList ['Y'] coord = false)
    (h : applyToken s g st coord = .ok st2) : st2.y = st.y := by
  unfold applyToken at h
  cases h1 : setX s st coord with
  | error e => simp [h1] at h
  | ok st1 =>
    simp only [h1, setY_miss hY] at h
    cases h3 : setZ s st1 coord with
    | error e => simp [h3] at h
    | ok stC =>
      simp only [h3] at h
      rw [(setF_ok_fields h).2.1, (setZ_ok_fields h3).2.1, (setX_ok_fields h1).1]

/-- A token that is not a Z field leaves z unchanged. -/
theorem applyToken_z_of_notZ {s : ℚ} {g : GState → Bool} {st : GState}
    {coord : List Char} {st2 : GState}
    (hZ : isPrefixList ['Z'] coord = false)
    (h : applyToken s g st coord = .ok st2) : st2.z = st.z := by
  unfold applyToken at h
  cases h1 : setX s st coord with
  | error e => simp [h1] at h
  | ok st1 =>
    simp only [h1] at h
    cases h2 : setY s st1 coord with
    | error e => simp [h2] at h
    | ok stB =>
      simp only [h2, setZ_miss hZ] at h
      rw [(setF_ok_fields h).2.2, (setY_ok_fields h2).2.1, (setX_ok_fields h1).2.1]

/-- Under the G0 guard, an already set feedrate can never change again:
the guard feedrate is None of the source fails on it forever. -/
theorem applyToken_G0_frozen {s : ℚ} {st : GState} {coord : List Char} {st2 : GState} {w : ℚ}
    (hw : st.feedrate = some w)
    (h : applyToken s (fun u => u.feedrate.isNone) st coord = .ok st2) :
    st2.feedrate = some w := by
  by_cases hF : isPrefixList ['F'] coord = true
  · have hX := firstCharExcl (show 'X' ≠ 'F' by decide) hF
    have hY := firstCharExcl (show 'Y' ≠ 'F' by decide) hF
    have hZ := firstCharExcl (show 'Z' ≠ 'F' by decide) hF
    have hsetF : setF (fun u : GState => u.feedrate.isNone) st coord = .ok st :=
      setF_guardFalse (by simp [hw])
    simp only [applyToken, setX_miss hX, setY_miss hY, setZ_miss hZ, hsetF,
      Except.ok.injEq] at h
    rw [← h]
    exact hw
  · rw [applyToken_feedrate_of_notF (Bool.not_eq_true _ ▸ hF : _) h, hw]

/-- Under a guard that is identically false (the G1 branch when a move
feedrate override is supplied), the feedrate never changes. -/
theorem applyToken_guardFalse_frozen {s : ℚ} {g : GState → Bool} {st : GState}
    {coord : List Char} {st2 : GState}
    (hg : ∀ u, g u = false)
    (h : applyToken s g st coord = .ok st2) : st2.feedrate = st.feedrate := by
  by_cases hF : isPrefixList ['F'] coord = true
  · have hX := firstCharExcl (show 'X' ≠ 'F' by decide) hF
    have hY := firstCharExcl (show 'Y' ≠ 'F' by decide) hF
    have hZ := firstCharExcl (show 'Z' ≠ 'F' by decide) hF
    simp only [applyToken, setX_miss hX, setY_miss hY, setZ_miss hZ, setF_guardFalse (hg st),
      Except.ok.injEq] at h
    rw [← h]
  · exact applyToken_feedrate_of_notF (Bool.not_eq_true _ ▸ hF : _) h

/-! ### Lemmas about the whole token loop -/

/-- Splitting the token loop at any point. -/
theorem procTokens_append (s : ℚ) (g : GState → Bool) (ts us : List (List Char)) :
    ∀ st : GState, procTokens s g st (ts ++ us) =
      match procTokens s g st ts with
      | .error e => .error e
      | .ok st2 => procTokens s g st2 us := by
  induction ts with
  | nil => intro st; rfl
  | cons t ts ih =>
    intro st
    simp only [List.cons_append, procTokens]
    cases h : applyToken s g st t with
    | error e => rfl
    | ok st2 => exact ih st2

/-- Under the G0 guard a feedrate set before the loop (the rapid
feedrate override) survives the whole loop. -/
theorem procTokens_G0_frozen {s : ℚ} {w : ℚ} (ts : List (List Char)) :
    ∀ st st2 : GState, st.feedrate = some w →
      procTokens s (fun u => u.feedrate.isNone) st ts = .ok st2 → st2.feedrate = some w := by
  induction ts with
  | nil =>
    intro st st2 hw h
    simp only [procTokens, Except.ok.injEq] at h
    rw [← h]; exact hw
  | cons t ts ih =>
    intro st st2 hw h
    simp only [procTokens] at h
    cases h1 : applyToken s (fun u => u.feedrate.isNone) st t with
    | error e => simp [h1] at h
    | ok stm =>
      simp only [h1] at h
      exact ih stm st2 (applyToken_G0_frozen hw h1) h

/-- Under a guard that is identically false the loop never touches the
feedrate. -/
theorem procTokens_guardFalse_frozen {s : ℚ} {g : GState → Bool} (hg : ∀ u, g u = false)
    (ts : List (List Char)) :
    ∀ st st2 : GState,
      procTokens s g st ts = .ok st2 → st2.feedrate = st.feedrate := by
  induction ts with
  | nil =>
    intro st st2 h
    simp only [procTokens, Except.ok.injEq] at h
    rw [← h]
  | cons t ts ih =>
    intro st st2 h
    simp only [procTokens] at h
    cases h1 : applyToken s g st t with
    | error e => simp [h1] at h
    | ok stm =>
      simp only [h1] at h
      rw [ih stm st2 h, applyToken_guardFalse_frozen hg h1]

/-- A stretch of tokens containing no X field leaves x unchanged. -/
theorem procTokens_noX {s : ℚ} {g : GState → Bool} (ts : List (List Char))
    (hts : ∀ t ∈ ts, isPrefixList ['X'] t = false) :
    ∀ st st2 : GState, procTokens s g st ts = .ok st2 → st2.x = st.x := by
  induction ts with
  | nil =>
    intro st st2 h
    simp only [procTokens, Except.ok.injEq] at h
    rw [← h]
  | cons t ts ih =>
    intro st st2 h
    simp only [procTokens] at h
    cases h1 : applyToken s g st t with
    | error e => simp [h1] at h
    | ok stm =>
      simp only [h1] at h
      rw [ih (fun u hu => hts u (List.mem_cons_of_mem _ hu)) stm st2 h,
        applyToken_x_of_notX (hts t (List.mem_cons_self _ _)) h1]

/-- A stretch of tokens containing no Y field leaves y unchanged. -/
theorem procTokens_noY {s : ℚ} {g : GState → Bool} (ts : List (List Char))
    (hts : ∀ t ∈ ts, isPrefixList ['Y'] t = false) :
    ∀ st st2 : GState, procTokens s g st ts = .ok st2 → st2.y = st.y := by
  induction ts with
  | nil =>
    intro st st2 h
    simp only [procTokens, Except.ok.injEq] at h
    rw [← h]
  | cons t ts ih =>
    intro st st2 h
    simp only [procTokens] at h
    cases h1 : applyToken s g st t with
    | error e => simp [h1] at h
    | ok stm =>
      simp only [h1] at h
      rw [ih (fun u hu => hts u (List.mem_cons_of_mem _ hu)) stm st2 h,
        applyToken_y_of_notY (hts t (List.mem_cons_self _ _)) h1]

/-- A stretch of tokens containing no Z field leaves z unchanged. -/
theorem procTokens_noZ {s : ℚ} {g : GState → Bool} (ts : List (List Char))
    (hts : ∀ t ∈ ts, isPrefixList ['Z'] t = false) :
    ∀ st st2 : GState, procTokens s g st ts = .ok st2 → st2.z = st.z := by
  induction ts with
  | nil =>
    intro st st2 h
    simp only [procTokens, Except.ok.injEq] at h
    rw [← h]
  | cons t ts ih =>
    intro st st2 h
    simp only [procTokens] at h
    cases h1 : applyToken s g st t with
    | error e => simp [h1] at h
    | ok stm =>
      simp only [h1] at h
      rw [ih (fun u hu => hts u (List.mem_cons_of_mem _ hu)) stm st2 h,
        applyToken_z_of_notZ (hts t (List.mem_cons_self _ _)) h1]

/-- A stretch of tokens containing no F field leaves the feedrate
unchanged, whatever the guard. -/
theorem procTokens_noF {s : ℚ} {g : GState → Bool} (ts : List (List Char))
    (hts : ∀ t ∈ ts, isPrefixList ['F'] t = false) :
    ∀ st st2 : GState, procTokens s g st ts = .ok st2 → st2.feedrate = st.feedrate := by
  induction ts with
  | nil =>
    intro st st2 h
    simp only [procTokens, Except.ok.injEq] at h
    rw [← h]
  | cons t ts ih =>
    intro st st2 h
    simp only [procTokens] at h
    cases h1 : applyToken s g st t with
    | error e => simp [h1] at h
    | ok stm =>
      simp only [h1] at h
      rw [ih (fun u hu => hts u (List.mem_cons_of_mem _ hu)) stm st2 h,
        applyToken_feedrate_of_notF (hts t (List.mem_cons_self _ _)) h1]

/-! ### Lemmas about splitting and the line loop -/

/-- Splitting a piece containing no separator returns the piece whole. -/
theorem splitOnChar_not_mem (sep : Char) : ∀ l : List Char, sep ∉ l → splitOnChar sep l = [l]
  | [], _ => rfl
  | c :: cs, h => by
    have hs : sep ∉ cs := fun m => h (List.mem_cons_of_mem _ m)
    have hc : ¬ (c = sep) := fun e => h (by simp [e])
    simp [splitOnChar, splitOnChar_not_mem sep cs hs, hc]

/-- Splitting at the first separator occurrence peels off the leading
separator-free piece. -/
theorem splitOnChar_append (sep : Char) : ∀ (l1 l2 : List Char), sep ∉ l1 →
    splitOnChar sep (l1 ++ sep :: l2) = l1 :: splitOnChar sep l2
  | [], l2, _ => by simp [splitOnChar]
  | c :: cs, l2, h => by
    have hs : sep ∉ cs := fun m => h (List.mem_cons_of_mem _ m)
    have hc : ¬ (c = sep) := fun e => h (by simp [e])
    simp [splitOnChar, splitOnChar_append sep cs l2 hs, hc]

/-- The line loop distributes over concatenation as long as the first
part finishes without a ValueError. -/
theorem translateLines_append (rf mf : Option ℚ) (s : ℚ) (pre rest : List (List Char))
    (h : (translateLines rf mf s pre).2 = none) :
    translateLines rf mf s (pre ++ rest) =
      ((translateLines rf mf s pre).1 ++ (translateLines rf mf s rest).1,
        (translateLines rf mf s rest).2) := by
  induction pre with
  | nil => simp [translateLines]
  | cons l ls ih =>
    cases h1 : processLine rf mf s l with
    | error e =>
      simp only [translateLines, h1] at h
      simp at h
    | ok cs =>
      have h2 : (translateLines rf mf s ls).2 = none := by
        simp only [translateLines, h1] at h
        exact h
      simp only [List.cons_append, translateLines, h1, List.append_eq]
      rw [ih h2]
      simp [List.append_assoc]

/-! ### Lemmas about single-line translation -/

/-- On a G0 line with a rapid feedrate override, a successful parse
emits exactly one rapid call carrying the override feedrate, whatever
F fields the line holds. -/
theorem processLine_G0_override (line : List Char) (v : ℚ) (mf : Option ℚ) (s : ℚ)
    (calls : List MoveCall)
    (hk : (lineTokens line).headD [] = "G0".data)
    (h : processLine (some v) mf s line = .ok calls) :
    ∃ x y z, calls = [⟨.rapid, x, y, z, some v⟩] := by
  simp only [processLine] at h
  rw [hk, if_pos rfl] at h
  cases hp : procTokens s (fun st => st.feedrate.isNone)
      ⟨none, none, none, some v⟩ ((lineTokens line).drop 1) with
  | error e => rw [hp] at h; cases h
  | ok st =>
    rw [hp] at h
    have hf : st.feedrate = some v :=
      procTokens_G0_frozen _ _ _ rfl hp
    refine ⟨st.x, st.y, st.z, ?_⟩
    cases h
    rw [hf]

/-- On a G1 line with a move feedrate override, a successful parse
emits exactly one linear call carrying the override feedrate, whatever
F fields the line holds (the F guard tests the parameter, which is not
None, so no F token is ever consumed). -/
theorem processLine_G1_override (line : List Char) (v : ℚ) (rf : Option ℚ) (s : ℚ)
    (calls : List MoveCall)
    (hk : (lineTokens line).headD [] = "G1".data)
    (h : processLine rf (some v) s line = .ok calls) :
    ∃ x y z, calls = [⟨.linear, x, y, z, some v⟩] := by
  simp only [processLine] at h
  rw [hk] at h
  rw [if_neg (by decide), if_pos rfl] at h
  cases hp : procTokens s (fun _ => (some v : Option ℚ).isNone)
      ⟨none, none, none, some v⟩ ((lineTokens line).drop 1) with
  | error e => rw [hp] at h; cases h
  | ok st =>
    rw [hp] at h
    have hf : st.feedrate = some v := by
      rw [procTokens_guardFalse_frozen (fun u => rfl) _ _ _ hp]
    refine ⟨st.x, st.y, st.z, ?_⟩
    cases h
    rw [hf]

/-- A G1 line whose X field remainder does not parse as a float raises
the ValueError carrying that remainder, for any policy; the remainder
must hold no space (it would be tokenised apart), no semicolon (it
would be cut as a comment) and no further X (the split would cut it). -/
theorem processLine_badX (rf mf : Option ℚ) (s : ℚ) (bad : List Char)
    (hsp : ' ' ∉ bad) (hsc : ';' ∉ bad) (hx : 'X' ∉ bad)
    (hp : parsePyFloat bad = none) :
    processLine rf mf s ("G1 X".data ++ bad) = .error (.malformedFloat bad) := by
  have hns : (';' : Char) ∉ "G1 X".data ++ bad := by
    intro m
    rcases List.mem_append.mp m with m1 | m2
    · revert m1; decide
    · exact hsc m2
  have hns2 : (' ' : Char) ∉ (['G', '1'] : List Char) := by decide
  have hns3 : (' ' : Char) ∉ 'X' :: bad := by
    intro m
    rcases List.mem_cons.mp m with m1 | m2
    · exact absurd m1 (by decide)
    · exact hsp m2
  have htok : lineTokens ("G1 X".data ++ bad) = [['G', '1'], 'X' :: bad] := by
    unfold lineTokens
    rw [splitOnChar_not_mem _ _ hns]
    show splitOnChar ' ' (['G', '1'] ++ ' ' :: ('X' :: bad)) = _
    rw [splitOnChar_append _ _ _ hns2, splitOnChar_not_mem _ _ hns3]
  have hpart : part1 'X' ('X' :: bad) = bad := by
    unfold part1
    rw [show splitOnChar 'X' ('X' :: bad) = [] :: splitOnChar 'X' bad from by
      simp [splitOnChar]]
    rw [splitOnChar_not_mem _ _ hx]
    rfl
  have hpref : isPrefixList ['X'] ('X' :: bad) = true := by simp [isPrefixList]
  have herr : ∀ (g : GState → Bool) (st : GState),
      applyToken s g st ('X' :: bad) = .error (.malformedFloat bad) := by
    intro g st
    have hp2 : parsePyFloat (part1 'X' ('X' :: bad)) = none := by rw [hpart]; exact hp
    rw [applyToken_X_err hpref hp2, hpart]
  simp only [processLine]
  rw [htok]
  simp only [List.headD]
  rw [if_neg (by decide), if_pos trivial]
  simp [procTokens, herr]

/-! ### Lemmas about the probe loop -/

/-- A candidate failing one of the three filters is skipped: the loop
continues with the rest of the enumeration and the candidate is never
written to. -/
theorem find_skip {platformLinux : Bool} {p : PortInfo} (rest : List PortInfo)
    (h : probedP platformLinux p = false) :
    find_serial_port platformLinux (p :: rest) = find_serial_port platformLinux rest := by
  unfold probedP at h
  cases hA : platformLinux && !(containsSeq "ttyUSB".data p.device.data) with
  | true => simp [find_serial_port, hA]
  | false =>
    cases hB : p.manufacturer.isSome with
    | true => simp [find_serial_port, hA, hB]
    | false =>
      cases hC : p.isOpen with
      | true =>
        exfalso
        rw [hA, hC, Option.isNone_iff_eq_none.mpr (Option.not_isSome_iff_eq_none.mp
          (by simp [hB]))] at h
        simp at h
      | false => simp [find_serial_port, hA, hB, hC]

/-- A probed candidate whose response bytes do not decode makes the
whole resolution raise: the loop stops at it, the error escapes. -/
theorem find_probe_decodefail {platformLinux : Bool} {p : PortInfo} (rest : List PortInfo)
    (h : probedP platformLinux p = true) (hd : utf8Decode p.response = none) :
    find_serial_port platformLinux (p :: rest) = ⟨[p.device], .raisedDecode⟩ := by
  unfold probedP at h
  simp only [Bool.and_eq_true, Bool.not_eq_true'] at h
  have h1 := h.1.1
  have h2 := h.1.2
  have h3 := h.2
  conv_lhs => unfold find_serial_port
  rw [if_neg (by simp [h1]), if_neg (by simp [Option.isNone_iff_eq_none.mp h2]),
    if_neg (by simp [h3]), hd]

/-- A probed candidate whose decoded response holds the Marlin
signature resolves: its device is returned and the loop stops. -/
theorem find_probe_match {platformLinux : Bool} {p : PortInfo} (rest : List PortInfo)
    {t : List Char}
    (h : probedP platformLinux p = true) (hd : utf8Decode p.response = some t)
    (hsig : containsSeq "Marlin".data t = true) :
    find_serial_port platformLinux (p :: rest) = ⟨[p.device], .returned (some p.device)⟩ := by
  unfold probedP at h
  simp only [Bool.and_eq_true, Bool.not_eq_true'] at h
  have h1 := h.1.1
  have h2 := h.1.2
  have h3 := h.2
  conv_lhs => unfold find_serial_port
  rw [if_neg (by simp [h1]), if_neg (by simp [Option.isNone_iff_eq_none.mp h2]),
    if_neg (by simp [h3]), hd]
  simp [hsig]

/-- A probed candidate whose decoded response lacks the signature is a
non-match: it is recorded as probed and the loop continues behind it. -/
theorem find_probe_nomatch {platformLinux : Bool} {p : PortInfo} (rest : List PortInfo)
    {t : List Char}
    (h : probedP platformLinux p = true) (hd : utf8Decode p.response = some t)
    (hsig : containsSeq "Marlin".data t = false) :
    find_serial_port platformLinux (p :: rest) =
      ⟨p.device :: (find_serial_port platformLinux rest).probed,
        (find_serial_port platformLinux rest).outcome⟩ := by
  unfold probedP at h
  simp only [Bool.and_eq_true, Bool.not_eq_true'] at h
  have h1 := h.1.1
  have h2 := h.1.2
  have h3 := h.2
  conv_lhs => unfold find_serial_port
  rw [if_neg (by simp [h1]), if_neg (by simp [Option.isNone_iff_eq_none.mp h2]),
    if_neg (by simp [h3]), hd]
  simp [hsig]

/-- Filtered candidates drop out of the full probed-device list. -/
theorem probedDevices_cons_false {platformLinux : Bool} {p : PortInfo}
    (ports : List PortInfo) (h : probedP platformLinux p = false) :
    probedDevices platformLinux (p :: ports) = probedDevices platformLinux ports := by
  simp [probedDevices, List.filter_cons, h]

/-- Probed candidates head the full probed-device list. -/
theorem probedDevices_cons_true {platformLinux : Bool} {p : PortInfo}
    (ports : List PortInfo) (h : probedP platformLinux p = true) :
    probedDevices platformLinux (p :: ports) = p.device :: probedDevices platformLinux ports := by
  simp [probedDevices, List.filter_cons, h]

/-! ### Claim theorems -/

/-- Claim C1, counterexample: translating the line G1 X10 Y20 F300 with
scale factor 2.0 and no feedrate override emits a linear move with
y = 40.0, not y = 20.0 as claimed: the Y field 20 is multiplied by the
scale factor 2.0 like every spatial field. -/
theorem C1_counterexample :
    (print_from_gcode ⟨[]⟩ "G1 X10 Y20 F300" none none 2).calls =
      [⟨.linear, some 20, some 40, none, some 300⟩] ∧
    (some (40 : ℚ) : Option ℚ) ≠ some 20 := by
  constructor
  · with_unfolding_all rfl
  · with_unfolding_all decide

/-- Claim C1 as amended: translating G1 X10 Y20 F300 with scale 2.0 and
no feedrate override emits exactly one linear move with x = 20.0,
y = 40.0, feedrate = 300.0 and z absent, with no error; and in general
each X, Y or Z field token sets exactly its coordinate to the parsed
value times the scale factor, while an F field token sets the feedrate
to the parsed value with no scaling. -/
theorem C1_theorem :
    ((print_from_gcode ⟨[]⟩ "G1 X10 Y20 F300" none none 2).calls =
        [⟨.linear, some 20, some 40, none, some 300⟩] ∧
      (print_from_gcode ⟨[]⟩ "G1 X10 Y20 F300" none none 2).err = none) ∧
    (∀ (s : ℚ) (g : GState → Bool) (st : GState) (tok : List Char) (v : ℚ),
      isPrefixList ['X'] tok = true → parsePyFloat (part1 'X' tok) = some v →
      applyToken s g st tok = .ok { st with x := some (v * s) }) ∧
    (∀ (s : ℚ) (g : GState → Bool) (st : GState) (tok : List Char) (v : ℚ),
      isPrefixList ['Y'] tok = true → parsePyFloat (part1 'Y' tok) = some v →
      applyToken s g st tok = .ok { st with y := some (v * s) }) ∧
    (∀ (s : ℚ) (g : GState → Bool) (st : GState) (tok : List Char) (v : ℚ),
      isPrefixList ['Z'] tok = true → parsePyFloat (part1 'Z' tok) = some v →
      applyToken s g st tok = .ok { st with z := some (v * s) }) ∧
    (∀ (s : ℚ) (g : GState → Bool) (st : GState) (tok : List Char) (v : ℚ),
      isPrefixList ['F'] tok = true → g st = true → parsePyFloat (part1 'F' tok) = some v →
      applyToken s g st tok = .ok { st with feedrate := some v }) := by
  refine ⟨⟨by with_unfolding_all rfl, by with_unfolding_all rfl⟩, ?_, ?_, ?_, ?_⟩
  · intro s g st tok v h hp
    exact applyToken_X_hit h hp
  · intro s g st tok v h hp
    exact applyToken_Y_hit h hp
  · intro s g st tok v h hp
    exact applyToken_Z_hit h hp
  · intro s g st tok v h hg hp
    exact applyToken_F_hit h hg hp

/-- Claim C1, witness: the X-scaling conjunct applied at the concrete
token X10 with scale 2. -/
theorem C1_witness :
    applyToken 2 (fun _ => true) ⟨none, none, none, none⟩ "X10".data =
      .ok { x := some ((10 : ℚ) * 2), y := none, z := none, feedrate := none } :=
  C1_theorem.2.1 2 (fun _ => true) ⟨none, none, none, none⟩ "X10".data 10
    (by decide) (by with_unfolding_all decide)

/-- Claim C2, counterexample: in a rapid line with two F fields and no
override, the FIRST occurrence wins, not the last: G0 F100 F200 emits
feedrate 100, because the G0 branch guards the F assignment with the
test that feedrate is still unset. -/
theorem C2_counterexample :
    (print_from_gcode ⟨[]⟩ "G0 F100 F200" none none 1).calls =
      [⟨.rapid, none, none, none, some 100⟩] ∧
    (some (100 : ℚ) : Option ℚ) ≠ some 200 := by
  constructor
  · with_unfolding_all rfl
  · with_unfolding_all decide

/-- Claim C2 as amended: for the X, Y and Z fields the last occurrence
wins in both move kinds (any later token of the same letter overwrites,
and a tail free of that letter preserves the value); for the F field
the last occurrence wins in linear moves without an override, but in
rapid moves without an override the FIRST F occurrence wins, since the
G0 branch assigns the feedrate only while it is still unset. -/
theorem C2_theorem :
    (∀ (s : ℚ) (g : GState → Bool) (st0 stf : GState) (ts rest : List (List Char))
        (tok : List Char) (v : ℚ),
      isPrefixList ['X'] tok = true → parsePyFloat (part1 'X' tok) = some v →
      (∀ t ∈ rest, isPrefixList ['X'] t = false) →
      procTokens s g st0 (ts ++ tok :: rest) = .ok stf → stf.x = some (v * s)) ∧
    (∀ (s : ℚ) (g : GState → Bool) (st0 stf : GState) (ts rest : List (List Char))
        (tok : List Char) (v : ℚ),
      isPrefixList ['Y'] tok = true → parsePyFloat (part1 'Y' tok) = some v →
      (∀ t ∈ rest, isPrefixList ['Y'] t = false) →
      procTokens s g st0 (ts ++ tok :: rest) = .ok stf → stf.y = some (v * s)) ∧
    (∀ (s : ℚ) (g : GState → Bool) (st0 stf : GState) (ts rest : List (List Char))
        (tok : List Char) (v : ℚ),
      isPrefixList ['Z'] tok = true → parsePyFloat (part1 'Z' tok) = some v →
      (∀ t ∈ rest, isPrefixList ['Z'] t = false) →
      procTokens s g st0 (ts ++ tok :: rest) = .ok stf → stf.z = some (v * s)) ∧
    (∀ (s : ℚ) (st0 stf : GState) (ts rest : List (List Char)) (tok : List Char) (v : ℚ),
      isPrefixList ['F'] tok = true → parsePyFloat (part1 'F' tok) = some v →
      (∀ t ∈ rest, isPrefixList ['F'] t = false) →
      procTokens s (fun _ => (none : Option ℚ).isNone) st0 (ts ++ tok :: rest) = .ok stf →
      stf.feedrate = some v) ∧
    (∀ (s : ℚ) (st0 stf : GState) (ts rest : List (List Char)) (tok : List Char) (v : ℚ),
      (∀ t ∈ ts, isPrefixList ['F'] t = false) →
      isPrefixList ['F'] tok = true → parsePyFloat (part1 'F' tok) = some v →
      st0.feedrate = none →
      procTokens s (fun u => u.feedrate.isNone) st0 (ts ++ tok :: rest) = .ok stf →
      stf.feedrate = some v) := by
  refine ⟨?_, ?_, ?_, ?_, ?_⟩
  · intro s g st0 stf ts rest tok v htok hp hrest h
    rw [procTokens_append] at h
    cases hpre : procTokens s g st0 ts with
    | error e => simp only [hpre] at h; exact absurd h (by simp)
    | ok st1 =>
      simp only [hpre] at h
      simp only [procTokens, applyToken_X_hit htok hp] at h
      rw [procTokens_noX rest hrest _ _ h]
  · intro s g st0 stf ts rest tok v htok hp hrest h
    rw [procTokens_append] at h
    cases hpre : procTokens s g st0 ts with
    | error e => simp only [hpre] at h; exact absurd h (by simp)
    | ok st1 =>
      simp only [hpre] at h
      simp only [procTokens, applyToken_Y_hit htok hp] at h
      rw [procTokens_noY rest hrest _ _ h]
  · intro s g st0 stf ts rest tok v htok hp hrest h
    rw [procTokens_append] at h
    cases hpre : procTokens s g st0 ts with
    | error e => simp only [hpre] at h; exact absurd h (by simp)
    | ok st1 =>
      simp only [hpre] at h
      simp only [procTokens, applyToken_Z_hit htok hp] at h
      rw [procTokens_noZ rest hrest _ _ h]
  · intro s st0 stf ts rest tok v htok hp hrest h
    rw [procTokens_append] at h
    cases hpre : procTokens s (fun _ => (none : Option ℚ).isNone) st0 ts with
    | error e => simp only [hpre] at h; exact absurd h (by simp)
    | ok st1 =>
      simp only [hpre] at h
      have happ := @applyToken_F_hit s (fun _ => (none : Option ℚ).isNone) st1 tok v htok rfl hp
      simp only [procTokens, happ] at h
      rw [procTokens_noF rest hrest _ _ h]
  · intro s st0 stf ts rest tok v hts htok hp h0 h
    rw [procTokens_append] at h
    cases hpre : procTokens s (fun u => u.feedrate.isNone) st0 ts with
    | error e => simp only [hpre] at h; exact absurd h (by simp)
    | ok st1 =>
      simp only [hpre] at h
      have h1 : st1.feedrate = none := by
        rw [procTokens_noF ts hts _ _ hpre, h0]
      have hg : (fun u : GState => u.feedrate.isNone) st1 = true := by simp [h1]
      have happ := @applyToken_F_hit s (fun u => u.feedrate.isNone) st1 tok v htok hg hp
      simp only [procTokens, happ] at h
      exact procTokens_G0_frozen rest _ _ rfl h

/-- Claim C2, witness: the last-X-wins conjunct applied to the token
list X1, X2 at scale 1, where the final x is 2. -/
theorem C2_witness :
    (⟨some ((2 : ℚ) * 1), none, none, none⟩ : GState).x = some ((2 : ℚ) * 1) :=
  C2_theorem.1 1 (fun u => u.feedrate.isNone) ⟨none, none, none, none⟩
    ⟨some ((2 : ℚ) * 1), none, none, none⟩ [['X', '1']] [] ['X', '2'] 2
    (by decide) (by with_unfolding_all decide) (by decide)
    (by with_unfolding_all rfl)

/-- Claim C3, counterexample: a probed candidate whose response bytes
(the single byte 255) do not decode makes resolution raise instead of
moving on: the next candidate, which would match, is never probed and
the decode error propagates, because the source calls response.decode()
with no exception handler. -/
theorem C3_counterexample :
    find_serial_port true
      [⟨"ttyUSB0", none, true, [255]⟩, ⟨"ttyUSB1", none, true, asciiBytes "Marlin"⟩] =
      ⟨["ttyUSB0"], .raisedDecode⟩ ∧
    ProbeOutcome.raisedDecode ≠ .returned (some "ttyUSB1") := by
  constructor
  · with_unfolding_all rfl
  · decide

/-- Claim C3 as amended: for every probed candidate whose response
bytes fail to decode, the UnicodeDecodeError propagates to the caller
and resolution does not continue with the next candidate: the probe
loop ends at that candidate. -/
theorem C3_theorem : ∀ (platformLinux : Bool) (p : PortInfo) (rest : List PortInfo),
    probedP platformLinux p = true → utf8Decode p.response = none →
    find_serial_port platformLinux (p :: rest) = ⟨[p.device], .raisedDecode⟩ ∧
    enderResolve platformLinux (p :: rest) = .decodeError := by
  intro platformLinux p rest h hd
  have hf := find_probe_decodefail rest h hd
  exact ⟨hf, by simp [enderResolve, hf]⟩

/-- Claim C3, witness: the amended statement at a concrete candidate
whose response is the lone invalid lead byte 192. -/
theorem C3_witness :
    find_serial_port true [⟨"ttyUSB2", none, true, [192]⟩] = ⟨["ttyUSB2"], .raisedDecode⟩ ∧
    enderResolve true [⟨"ttyUSB2", none, true, [192]⟩] = .decodeError :=
  C3_theorem true ⟨"ttyUSB2", none, true, [192]⟩ [] (by decide) (by decide)

/-- Claim C4, counterexample: an enumeration with a single probed
candidate whose response (the byte 255) contains no signature, and
indeed cannot even be decoded, does not fail with PortNotFound: the
resolution surfaces the uncaught decode error instead. -/
theorem C4_counterexample :
    (∀ p ∈ [(⟨"ttyUSB0", none, true, [255]⟩ : PortInfo)], decodesWithSig p.response = false) ∧
    enderResolve true [⟨"ttyUSB0", none, true, [255]⟩] = .decodeError ∧
    ResolveOutcome.decodeError ≠ .portNotFound := by
  refine ⟨by decide, by with_unfolding_all rfl, by decide⟩

/-- Claim C4 as amended: for every enumeration in which every probed
candidate response decodes successfully and none of the decoded texts
contains the firmware signature, the loop falls through returning None
after probing exactly the filter-passing candidates, and the
constructor surfaces the PortNotFound failure (its RuntimeError). -/
theorem C4_theorem : ∀ (platformLinux : Bool) (ports : List PortInfo),
    (∀ p ∈ ports, probedP platformLinux p = true → decodesWithoutSig p.response = true) →
    find_serial_port platformLinux ports =
      ⟨probedDevices platformLinux ports, .returned none⟩ ∧
    enderResolve platformLinux ports = .portNotFound := by
  intro platformLinux ports
  induction ports with
  | nil => intro _; exact ⟨rfl, rfl⟩
  | cons p rest ih =>
    intro h
    have hrest := ih (fun q hq => h q (List.mem_cons_of_mem _ hq))
    by_cases hp : probedP platformLinux p = true
    · have hd := h p (List.mem_cons_self _ _) hp
      cases hdec : utf8Decode p.response with
      | none => simp [decodesWithoutSig, hdec] at hd
      | some t =>
        have hsig : containsSeq "Marlin".data t = false := by
          simp only [decodesWithoutSig, hdec] at hd
          simpa using hd
        have hf := find_probe_nomatch rest hp hdec hsig
        constructor
        · rw [hf, hrest.1, probedDevices_cons_true rest hp]
        · simp [enderResolve, hf, hrest.1]
    · have hp2 : probedP platformLinux p = false := by
        revert hp; cases probedP platformLinux p <;> simp
      have hf := find_skip rest hp2
      exact ⟨by rw [hf, hrest.1, probedDevices_cons_false rest hp2],
        by simp [enderResolve, hf, hrest.1]⟩

/-- Claim C4, witness: the amended statement at a concrete enumeration
of a filtered candidate and a probed candidate answering only ok. -/
theorem C4_witness :
    find_serial_port true [⟨"ttyS0", none, true, asciiBytes "Marlin"⟩,
        ⟨"ttyUSB9", none, true, asciiBytes "ok"⟩] =
      ⟨["ttyUSB9"], .returned none⟩ ∧
    enderResolve true [⟨"ttyS0", none, true, asciiBytes "Marlin"⟩,
        ⟨"ttyUSB9", none, true, asciiBytes "ok"⟩] = .portNotFound :=
  C4_theorem true [⟨"ttyS0", none, true, asciiBytes "Marlin"⟩,
    ⟨"ttyUSB9", none, true, asciiBytes "ok"⟩] (by decide)

/-- Claim C5, counterexample: the rapid line G0 F100 Fabc with no
override holds malformed numeric text after the recognized field
letter F, yet the run raises no ParseError and the line emits a move:
the first F token sets the feedrate to 100, so at Fabc the guard of
the G0 branch (feedrate is None) is already false, the and of the
source short-circuits, and float is never called on abc. -/
theorem C5_counterexample :
    (print_from_gcode ⟨[]⟩ "G0 F100 Fabc" none none 1).calls =
      [⟨.rapid, none, none, none, some 100⟩] ∧
    (print_from_gcode ⟨[]⟩ "G0 F100 Fabc" none none 1).err = none ∧
    (none : Option ParseError) ≠ some (.malformedFloat "abc".data) := by
  refine ⟨by with_unfolding_all rfl, by with_unfolding_all rfl, by decide⟩

/-- Claim C5 as amended: a malformed numeric field aborts the run with
the ValueError (the ParseError of the specification) exactly when the
field is evaluated.  X, Y and Z fields always are: a line G1 X
followed by unparsable text aborts the run, the calls emitted are
those of the earlier clean lines, the bad line emits nothing and
nothing after it is processed.  An F field, however, is evaluated only
while the branch guard holds, so a malformed F token under a false
guard (an override supplied for the kind, or an earlier F token in a
rapid move with no override) is skipped entirely and raises nothing.
Concretely, the two-line file G1 Xabc, G0 X5 yields no calls and the
error carrying the literal abc with its newline, while G0 Fabc under a
rapid override of 1500 and G1 Fabc under a move override of 900 emit
their moves with the override feedrate and no error. -/
theorem C5_theorem :
    (∀ (pre post : List (List Char)) (rf mf : Option ℚ) (s : ℚ) (bad : List Char),
      ' ' ∉ bad → ';' ∉ bad → 'X' ∉ bad → parsePyFloat bad = none →
      (translateLines rf mf s pre).2 = none →
      translateLines rf mf s (pre ++ ("G1 X".data ++ bad) :: post) =
        ((translateLines rf mf s pre).1, some (.malformedFloat bad))) ∧
    (∀ (s : ℚ) (g : GState → Bool) (st : GState) (coord : List Char),
      isPrefixList ['F'] coord = true → g st = false →
      applyToken s g st coord = .ok st) ∧
    print_from_gcode ⟨[]⟩ "G1 Xabc\nG0 X5" none none 1 =
      ⟨⟨pyReadlines "G1 Xabc\nG0 X5"⟩, [], some (.malformedFloat "abc\n".data)⟩ ∧
    (print_from_gcode ⟨[]⟩ "G0 Fabc" (some 1500) none 1).calls =
      [⟨.rapid, none, none, none, some 1500⟩] ∧
    (print_from_gcode ⟨[]⟩ "G0 Fabc" (some 1500) none 1).err = none ∧
    (print_from_gcode ⟨[]⟩ "G1 Fabc" none (some 900) 1).calls =
      [⟨.linear, none, none, none, some 900⟩] ∧
    (print_from_gcode ⟨[]⟩ "G1 Fabc" none (some 900) 1).err = none := by
  refine ⟨?_, ?_, by with_unfolding_all rfl, by with_unfolding_all rfl,
    by with_unfolding_all rfl, by with_unfolding_all rfl, by with_unfolding_all rfl⟩
  · intro pre post rf mf s bad h1 h2 h3 h4 h5
    rw [translateLines_append rf mf s pre _ h5]
    have hbad : processLine rf mf s ("G1 X".data ++ bad) = .error (.malformedFloat bad) :=
      processLine_badX rf mf s bad h1 h2 h3 h4
    have hline : translateLines rf mf s (("G1 X".data ++ bad) :: post) =
        ([], some (.malformedFloat bad)) := by
      simp only [translateLines, hbad]
    rw [hline]
    simp
  · intro s g st coord hF hg
    exact applyToken_F_skip hF hg

/-- Claim C5, witness: the general conjunct at the single-line run
G1 Xabc with no earlier lines. -/
theorem C5_witness :
    translateLines none none 1 ([] ++ ("G1 X".data ++ "abc".data) :: []) =
      (([] : List MoveCall), some (.malformedFloat "abc".data)) :=
  C5_theorem.1 [] [] none none 1 "abc".data (by decide) (by decide) (by decide)
    (by with_unfolding_all decide) rfl

/-- Claim C6, counterexample: a file whose single line is the bare kind
marker G0 followed by its newline emits NO move call (and no error):
readlines keeps the newline, the split is on spaces only, so the first
token is G0 plus newline and matches no case; the line is silently
skipped instead of emitting a rapid move. -/
theorem C6_counterexample :
    (print_from_gcode ⟨[]⟩ "G0\n" none none 1).calls = [] ∧
    (print_from_gcode ⟨[]⟩ "G0\n" none none 1).err = none ∧
    ([] : List MoveCall) ≠ [⟨.rapid, none, none, none, none⟩] := by
  refine ⟨by with_unfolding_all rfl, by with_unfolding_all rfl, by decide⟩

/-- Claim C6 as amended: a kind-only line emits a move of its kind with
every field absent only when the line carries no trailing newline (the
final line of a file not ending in a newline) and no feedrate override
is set for that kind; a kind-only line terminated by a newline matches
neither case, emits nothing and raises nothing. -/
theorem C6_theorem :
    (print_from_gcode ⟨[]⟩ "G0" none none 1).calls = [⟨.rapid, none, none, none, none⟩] ∧
    (print_from_gcode ⟨[]⟩ "G0" none none 1).err = none ∧
    (print_from_gcode ⟨[]⟩ "G1" none none 1).calls = [⟨.linear, none, none, none, none⟩] ∧
    (print_from_gcode ⟨[]⟩ "G1" none none 1).err = none ∧
    (print_from_gcode ⟨[]⟩ "G0\n" none none 1).calls = [] ∧
    (print_from_gcode ⟨[]⟩ "G1\n" none none 1).calls = [] ∧
    (print_from_gcode ⟨[]⟩ "G1\n" none none 1).err = none := by
  refine ⟨by with_unfolding_all rfl, by with_unfolding_all rfl, by with_unfolding_all rfl,
    by with_unfolding_all rfl, by with_unfolding_all rfl, by with_unfolding_all rfl,
    by with_unfolding_all rfl⟩

/-- Claim C7: when a feedrate override is supplied for a move kind,
every call emitted for a line of that kind carries the override and any
F field of the line is ignored: in the G0 branch the override keeps the
feedrate non-None so the guarded F assignment never fires, in the G1
branch the guard tests the parameter itself.  Concretely, G0 X5 with
rapid override 1500 and scale 1 emits one rapid call with x = 5.0 and
feedrate = 1500, no error. -/
theorem C7_theorem :
    ((print_from_gcode ⟨[]⟩ "G0 X5" (some 1500) none 1).calls =
        [⟨.rapid, some 5, none, none, some 1500⟩] ∧
      (print_from_gcode ⟨[]⟩ "G0 X5" (some 1500) none 1).err = none) ∧
    (∀ (line : List Char) (v : ℚ) (mf : Option ℚ) (s : ℚ) (calls : List MoveCall),
      (lineTokens line).headD [] = "G0".data →
      processLine (some v) mf s line = .ok calls →
      ∃ x y z, calls = [⟨.rapid, x, y, z, some v⟩]) ∧
    (∀ (line : List Char) (v : ℚ) (rf : Option ℚ) (s : ℚ) (calls : List MoveCall),
      (lineTokens line).headD [] = "G1".data →
      processLine rf (some v) s line = .ok calls →
      ∃ x y z, calls = [⟨.linear, x, y, z, some v⟩]) :=
  ⟨⟨by with_unfolding_all rfl, by with_unfolding_all rfl⟩,
    processLine_G0_override, processLine_G1_override⟩

/-- Claim C7, witness: the rapid-override conjunct at the concrete
line G0 X5 with override 1500 and scale 1. -/
theorem C7_witness :
    ∃ x y z, [(⟨.rapid, some 5, none, none, some 1500⟩ : MoveCall)] =
      [⟨.rapid, x, y, z, some (1500 : ℚ)⟩] :=
  C7_theorem.2.1 "G0 X5".data 1500 none 1 [⟨.rapid, some 5, none, none, some 1500⟩]
    (by decide) (by with_unfolding_all rfl)

/-- Claim C8: each in-range selector 1 to 9 writes exactly its mapped
code G54, G55, G56, G57, G58, G59, G59.1, G59.2 or G59.3 with no
warning; every in-range selector warns nothing and writes exactly one
directive; every out-of-range selector writes nothing, records the
warning and zeroes nothing, and no path of the operation raises (the
model is a total function). -/
theorem C8_theorem :
    use_workpiece_coordinate_system 1 false = ⟨["G54"], false, false⟩ ∧
    use_workpiece_coordinate_system 2 false = ⟨["G55"], false, false⟩ ∧
    use_workpiece_coordinate_system 3 false = ⟨["G56"], false, false⟩ ∧
    use_workpiece_coordinate_system 4 false = ⟨["G57"], false, false⟩ ∧
    use_workpiece_coordinate_system 5 false = ⟨["G58"], false, false⟩ ∧
    use_workpiece_coordinate_system 6 false = ⟨["G59"], false, false⟩ ∧
    use_workpiece_coordinate_system 7 false = ⟨["G59.1"], false, false⟩ ∧
    use_workpiece_coordinate_system 8 false = ⟨["G59.2"], false, false⟩ ∧
    use_workpiece_coordinate_system 9 false = ⟨["G59.3"], false, false⟩ ∧
    (∀ n : Int, 1 ≤ n → n ≤ 9 →
      (use_workpiece_coordinate_system n false).warned = false ∧
      (use_workpiece_coordinate_system n false).written.length = 1) ∧
    (∀ (n : Int) (zero_coords : Bool), ¬ (1 ≤ n ∧ n ≤ 9) →
      use_workpiece_coordinate_system n zero_coords = ⟨[], true, false⟩) := by
  refine ⟨by decide, by decide, by decide, by decide, by decide, by decide, by decide,
    by decide, by decide, ?_, ?_⟩
  · intro n h1 h2
    interval_cases n <;> exact ⟨by decide, by decide⟩
  · intro n zero_coords h
    unfold use_workpiece_coordinate_system
    rw [if_pos h]

/-- Claim C8, witness: the universal conjuncts applied at the in-range
selector 5 and the out-of-range selector 0. -/
theorem C8_witness :
    ((use_workpiece_coordinate_system 5 false).warned = false ∧
      (use_workpiece_coordinate_system 5 false).written.length = 1) ∧
    use_workpiece_coordinate_system 0 true = ⟨[], true, false⟩ :=
  ⟨C8_theorem.2.2.2.2.2.2.2.2.2.1 5 (by decide) (by decide),
    C8_theorem.2.2.2.2.2.2.2.2.2.2 0 true (by decide)⟩

/-- Claim C9, counterexample: an enumeration where the second probed
candidate carries the signature in its response while the first probed
candidate response does not decode: resolution does not return the
signature-bearing candidate, it raises at the first one, so the claim
that it returns the first matching candidate fails. -/
theorem C9_counterexample :
    (probedP true ⟨"ttyUSB4", none, true, asciiBytes "FIRMWARE Marlin 2.0"⟩ = true ∧
      decodesWithSig (asciiBytes "FIRMWARE Marlin 2.0") = true) ∧
    find_serial_port true
      [⟨"ttyUSB3", none, true, [254]⟩,
        ⟨"ttyUSB4", none, true, asciiBytes "FIRMWARE Marlin 2.0"⟩] =
      ⟨["ttyUSB3"], .raisedDecode⟩ ∧
    ProbeOutcome.raisedDecode ≠ .returned (some "ttyUSB4") := by
  refine ⟨⟨by decide, by decide⟩, by with_unfolding_all rfl, by decide⟩

/-- Claim C9 as amended: when some probed candidate response decodes
to text containing the firmware signature, and every probed candidate
before the first such one decodes without matching, resolution returns
the device of that first matching candidate and stops there: the
probed devices are exactly the filter-passing ones up to and including
it, and nothing after it is probed. -/
theorem C9_theorem : ∀ (platformLinux : Bool) (pre : List PortInfo) (p : PortInfo)
    (post : List PortInfo),
    (∀ q ∈ pre, probedP platformLinux q = true → decodesWithoutSig q.response = true) →
    probedP platformLinux p = true → decodesWithSig p.response = true →
    find_serial_port platformLinux (pre ++ p :: post) =
      ⟨probedDevices platformLinux pre ++ [p.device], .returned (some p.device)⟩ ∧
    enderResolve platformLinux (pre ++ p :: post) = .found p.device := by
  intro platformLinux pre p post
  induction pre with
  | nil =>
    intro _ hp hsig
    cases hdec : utf8Decode p.response with
    | none => simp [decodesWithSig, hdec] at hsig
    | some t =>
      have hs : containsSeq "Marlin".data t = true := by
        simp only [decodesWithSig, hdec] at hsig
        exact hsig
      have hf := find_probe_match post hp hdec hs
      exact ⟨by rw [List.nil_append, hf]; rfl, by simp [enderResolve, hf]⟩
  | cons q pre ih =>
    intro hpre hp hsig
    have ihh := ih (fun r hr => hpre r (List.mem_cons_of_mem _ hr)) hp hsig
    by_cases hq : probedP platformLinux q = true
    · have hdq := hpre q (List.mem_cons_self _ _) hq
      cases hdec : utf8Decode q.response with
      | none => simp [decodesWithoutSig, hdec] at hdq
      | some t =>
        have hs : containsSeq "Marlin".data t = false := by
          simp only [decodesWithoutSig, hdec] at hdq
          simpa using hdq
        have hf := find_probe_nomatch (pre ++ p :: post) hq hdec hs
        constructor
        · rw [List.cons_append, hf, ihh.1, probedDevices_cons_true pre hq]
          rfl
        · rw [List.cons_append]
          simp [enderResolve, hf, ihh.1]
    · have hq2 : probedP platformLinux q = false := by
        revert hq; cases probedP platformLinux q <;> simp
      have hf := find_skip (pre ++ p :: post) hq2
      exact ⟨by rw [List.cons_append, hf, ihh.1, probedDevices_cons_false pre hq2],
        by rw [List.cons_append]; simp [enderResolve, hf, ihh.1]⟩

/-- Claim C9, witness: the amended statement at a four-candidate
enumeration: a filtered candidate, a clean non-match, the matching
candidate, and a later candidate that is never probed (its response
would not even decode). -/
theorem C9_witness :
    find_serial_port true
      [⟨"ttyACM0", none, true, asciiBytes "Marlin"⟩,
        ⟨"ttyUSB5", none, true, asciiBytes "start"⟩,
        ⟨"ttyUSB6", none, true, asciiBytes "FIRMWARE_NAME:Marlin 2.0"⟩,
        ⟨"ttyUSB7", none, true, [255]⟩] =
      ⟨["ttyUSB5", "ttyUSB6"], .returned (some "ttyUSB6")⟩ ∧
    enderResolve true
      [⟨"ttyACM0", none, true, asciiBytes "Marlin"⟩,
        ⟨"ttyUSB5", none, true, asciiBytes "start"⟩,
        ⟨"ttyUSB6", none, true, asciiBytes "FIRMWARE_NAME:Marlin 2.0"⟩,
        ⟨"ttyUSB7", none, true, [255]⟩] = .found "ttyUSB6" :=
  C9_theorem true
    [⟨"ttyACM0", none, true, asciiBytes "Marlin"⟩, ⟨"ttyUSB5", none, true, asciiBytes "start"⟩]
    ⟨"ttyUSB6", none, true, asciiBytes "FIRMWARE_NAME:Marlin 2.0"⟩
    [⟨"ttyUSB7", none, true, [255]⟩]
    (by decide) (by decide) (by decide)

/-- Claim C10: after every run of print_from_gcode the session retains
the entire source program, every line read from the file with its
newline, in the attribute ode_content, whatever the incoming state and
the policy, and even when the run aborts with a ParseError (the
attribute is assigned before the parsing loop); a later run overwrites
it, since the equation holds again for the new content. -/
theorem C10_theorem : ∀ (st : EnderState) (content : String) (rf mf : Option ℚ) (s : ℚ),
    (print_from_gcode st content rf mf s).state.ode_content = pyReadlines content :=
  fun _ _ _ _ _ => rfl
